import Mathlib

/-!
Verification development for the face-blur repository.

The repository processes a video frame by frame: it detects faces, compares
each detected face against a whitelist of known identities by embedding
distance, and blurs every face that does not match.  Two pipeline variants
exist in the source:

* `face_processing.py` (DeepFace variant): `is_face_whitelisted`,
  `process_video`;
* `pytorch_face_processing.py` together with `improved_face_blur_app.py`
  (PyTorch variant): `PyTorchFaceProcessor.detect_and_blur_faces` and
  `FaceBlurApp.process_video`.

The embedding below models frames as pixel grids, numpy basic slicing
exactly (negative start indices address from the far edge, overshooting
stop indices are truncated), the external detector and embedding providers
as per-call oracles, and the external Gaussian blur as an opaque function
parameter.  Floating-point embedding distances are modelled over ℚ: each
source comparison "norm(p - e) < t" (a square root against a threshold)
is embedded exactly as the equivalent rational test
"0 < t ∧ sumSqDiff p e < t^2", which has the same truth value because the
sum of squares is nonnegative and squaring is strictly monotone on
nonnegative numbers.
-/

namespace FaceBlur

/-- A video frame: a dense pixel grid with height `h`, width `w` and channel
count `c`.  `pix i j` abstracts the channel tuple of the pixel at row `i`,
column `j` as a single integer value; indices outside the grid are
irrelevant junk. -/
structure Frame where
  h : Nat
  w : Nat
  c : Nat
  pix : Nat → Nat → ℤ

instance : Inhabited Frame := ⟨⟨0, 0, 0, fun _ _ => 0⟩⟩

/-- Resolution of one endpoint of a numpy basic slice on an axis of length
`n`: a negative index is taken from the far edge (and floored at 0), a
nonnegative index is truncated to `n`.  This is exactly what
`frame[y1:y2, x1:x2]` does in the source; the source performs no explicit
clamping of box coordinates. -/
def npResolve (n : Nat) (i : Int) : Nat :=
  if i < 0 then ((n : Int) + i).toNat else min i.toNat n

/-- The subgrid of `f` with rows `[r1, r2)` and columns `[c1, c2)`, as
produced by a numpy slice after index resolution. -/
def subgrid (f : Frame) (r1 r2 c1 c2 : Nat) : Frame :=
  { h := r2 - r1, w := c2 - c1, c := f.c,
    pix := fun i j => f.pix (r1 + i) (c1 + j) }

/-- In-place region assignment `frame[r1:r2, c1:c2] = g`, as performed by the
source when writing a blurred face region back into the frame. -/
def writeRegion (f : Frame) (r1 r2 c1 c2 : Nat) (g : Frame) : Frame :=
  { h := f.h, w := f.w, c := f.c,
    pix := fun i j =>
      if r1 ≤ i ∧ i < r2 ∧ c1 ≤ j ∧ j < c2 then g.pix (i - r1) (j - c1)
      else f.pix i j }

/-- An identity embedding: the fixed-length numeric vector returned by the
embedding provider, over ℚ. -/
abbrev Emb := List ℚ

/-- Sum of squared coordinate differences of two embeddings, the square of
the Euclidean norm `np.linalg.norm(np.array(a) - np.array(b))` computed by
both matcher variants (embeddings from one provider have equal length). -/
def sumSqDiff (a b : Emb) : ℚ :=
  ((a.zip b).map fun p => (p.1 - p.2) ^ 2).sum

/-- One source comparison `distance < threshold` where
`distance = sqrt (sumSqDiff probe emb)`.  Since the sum of squares is
nonnegative, `sqrt s < t` holds iff `0 < t ∧ s < t^2`, which is the exact
rational rendering used here. -/
def distLtThreshold (probe emb : Emb) (t : ℚ) : Bool :=
  decide (0 < t ∧ sumSqDiff probe emb < t ^ 2)

/-- Embedding of `face_processing.is_face_whitelisted`.  The external
DeepFace call `DeepFace.represent` on the cropped face is modelled by
`embedResult` (`none` models the call raising an exception, which the source
catches and turns into `return False`).  The `deepfaceAvailable` flag models
the module-level `DEEPFACE_AVAILABLE` guard.  On success the source scans
the whitelist and returns `True` on the first entry at distance strictly
below `threshold` (default 0.5 at the call site in `process_video`). -/
def is_face_whitelisted (deepfaceAvailable : Bool) (embedResult : Option Emb)
    (wl : List (String × Emb)) (t : ℚ) : Bool :=
  if deepfaceAvailable then
    match embedResult with
    | none => false
    | some probe => wl.any fun e => distLtThreshold probe e.2 t
  else false

/-- Embedding of the whitelist scan inside
`PyTorchFaceProcessor.detect_and_blur_faces` (lines 104-110): start from
`is_whitelisted = False`, scan `whitelist_embeddings`, and stop at the first
entry at distance strictly below `embedding_threshold`. -/
def ptWhitelisted (emb : Emb) (wl : List Emb) (t : ℚ) : Bool :=
  wl.any fun w => distLtThreshold emb w t

/-- Squared distances from a probe to every whitelist entry, in store
order. -/
def distsSq (probe : Emb) (wl : List (String × Emb)) : List ℚ :=
  wl.map fun e => sumSqDiff probe e.2

/-- Matcher written from the specification's words, for the refinement
comparison in C3: compute the distance to every entry (full scan, no early
exit), take the minimum, and report a match iff that minimum is strictly
below the threshold.  Distances appear in squared form exactly as in
`distLtThreshold`. -/
def matchesFullScan (probe : Emb) (wl : List (String × Emb)) (t : ℚ) : Bool :=
  match (distsSq probe wl).min? with
  | none => false
  | some m => decide (0 < t ∧ m < t ^ 2)

/-- A face bounding box as returned by the MTCNN detector after the source's
`int()` truncation: corners `(x1, y1)` and `(x2, y2)` in pixel coordinates,
possibly negative or beyond the frame edge. -/
structure Box where
  x1 : Int
  y1 : Int
  x2 : Int
  y2 : Int
deriving DecidableEq

/-- Resolved row start of a box crop in frame `f` (numpy semantics). -/
def ptR1 (f : Frame) (b : Box) : Nat := npResolve f.h b.y1

/-- Resolved row stop of a box crop in frame `f`. -/
def ptR2 (f : Frame) (b : Box) : Nat := npResolve f.h b.y2

/-- Resolved column start of a box crop in frame `f`. -/
def ptC1 (f : Frame) (b : Box) : Nat := npResolve f.w b.x1

/-- Resolved column stop of a box crop in frame `f`. -/
def ptC2 (f : Frame) (b : Box) : Nat := npResolve f.w b.x2

/-- The crop `frame[y1:y2, x1:x2]` of the PyTorch variant. -/
def cropPT (f : Frame) (b : Box) : Frame :=
  subgrid f (ptR1 f b) (ptR2 f b) (ptC1 f b) (ptC2 f b)

/-- Element count `face.size` of the crop; the source blurs only when it is
positive. -/
def ptCropSize (f : Frame) (b : Box) : Nat :=
  (ptR2 f b - ptR1 f b) * (ptC2 f b - ptC1 f b) * f.c

/-- One blur-and-write step of the PyTorch variant:
`blurred_face = cv2.GaussianBlur(face, ...)` followed by
`frame[y1:y2, x1:x2] = blurred_face`, guarded by `face.size > 0`.
The external Gaussian blur is the opaque parameter `blur`. -/
def ptBlurRegion (blur : Frame → Frame) (f : Frame) (b : Box) : Frame :=
  if 0 < ptCropSize f b then
    writeRegion f (ptR1 f b) (ptR2 f b) (ptC1 f b) (ptC2 f b)
      (blur (cropPT f b))
  else f

/-- Outcome of the external `self.mtcnn.detect(img)` call on one frame:
the provider raised (`fail`), returned `boxes = None` (`noFaces`), or
returned boxes paired with their confidence scores (`found`). -/
inductive DetectOutcome where
  | fail
  | noFaces
  | found (faces : List (Box × ℚ))

/-- Loop body of `detect_and_blur_faces` for one `(box, prob)` pair over the
state (current frame, `num_blurred`): skip if `prob < detection_confidence`;
skip if the face-tensor extraction (`embedOf`, modelling `mtcnn.extract`
followed by the resnet embedding) yields `None`; otherwise scan the
whitelist and, if unmatched, increment `num_blurred` and blur the region
in place. -/
def processFacePT (wl : List Emb) (tDet tEmb : ℚ) (blur : Frame → Frame)
    (embedOf : Box → Option Emb) (st : Frame × Nat) (bp : Box × ℚ) :
    Frame × Nat :=
  if bp.2 < tDet then st
  else
    match embedOf bp.1 with
    | none => st
    | some emb =>
      if ptWhitelisted emb wl tEmb then st
      else (ptBlurRegion blur st.1 bp.1, st.2 + 1)

/-- Embedding of `PyTorchFaceProcessor.detect_and_blur_faces`: on a detector
exception or `boxes is None` the frame is returned unmodified with both
counts zero; otherwise `num_detected = len(boxes)` and each box is processed
by `processFacePT` in order.  Returns (frame, `num_detected`,
`num_blurred`). -/
def detect_and_blur_faces (wl : List Emb) (tDet tEmb : ℚ)
    (blur : Frame → Frame) (embedOf : Box → Option Emb)
    (det : DetectOutcome) (frame : Frame) : Frame × Nat × Nat :=
  match det with
  | .fail => (frame, 0, 0)
  | .noFaces => (frame, 0, 0)
  | .found faces =>
    let st := faces.foldl (processFacePT wl tDet tEmb blur embedOf) (frame, 0)
    (st.1, faces.length, st.2)

/-- A facial area as returned by `DeepFace.extract_faces`: top-left corner
`(x, y)` with extent `(w, h)`. -/
structure Rect where
  x : Int
  y : Int
  w : Int
  h : Int
deriving DecidableEq

/-- Resolved row start of a facial-area crop `frame[y:y+h, x:x+w]`. -/
def dfR1 (f : Frame) (r : Rect) : Nat := npResolve f.h r.y

/-- Resolved row stop of a facial-area crop. -/
def dfR2 (f : Frame) (r : Rect) : Nat := npResolve f.h (r.y + r.h)

/-- Resolved column start of a facial-area crop. -/
def dfC1 (f : Frame) (r : Rect) : Nat := npResolve f.w r.x

/-- Resolved column stop of a facial-area crop. -/
def dfC2 (f : Frame) (r : Rect) : Nat := npResolve f.w (r.x + r.w)

/-- The crop `frame[y:y+h, x:x+w]` of the DeepFace variant. -/
def cropDF (f : Frame) (r : Rect) : Frame :=
  subgrid f (dfR1 f r) (dfR2 f r) (dfC1 f r) (dfC2 f r)

/-- Element count of a facial-area crop.  `cv2.GaussianBlur` raises on an
empty input, which the per-frame `except` block of `process_video`
catches. -/
def dfCropSize (f : Frame) (r : Rect) : Nat :=
  (dfR2 f r - dfR1 f r) * (dfC2 f r - dfC1 f r) * f.c

/-- Blur-and-write step of the DeepFace variant for one facial area. -/
def dfBlurRegion (blur : Frame → Frame) (f : Frame) (r : Rect) : Frame :=
  writeRegion f (dfR1 f r) (dfR2 f r) (dfC1 f r) (dfC2 f r)
    (blur (cropDF f r))

/-- Per-frame face loop of `face_processing.process_video` (lines 123-130)
over the list of detected facial areas, each paired with the outcome of the
DeepFace embedding call on its crop (`none` models the call raising inside
`is_face_whitelisted`, which that function catches and maps to `False`).
Whitelisted faces are left untouched; other faces are blurred in place.
A face whose crop is empty makes `cv2.GaussianBlur` raise; the frame-level
`except` then aborts the remaining faces of this frame, keeping the blurs
applied so far (second component `true` records that the exception was
caught and logged). -/
def processFacesDF (da : Bool) (wl : List (String × Emb)) (t : ℚ)
    (blur : Frame → Frame) (frame : Frame) :
    List (Rect × Option Emb) → Frame × Bool
  | [] => (frame, false)
  | (rect, embRes) :: rest =>
    if is_face_whitelisted da embRes wl t then
      processFacesDF da wl t blur frame rest
    else if 0 < dfCropSize frame rect then
      processFacesDF da wl t blur (dfBlurRegion blur frame rect) rest
    else (frame, true)

/-- Outcome of `DeepFace.extract_faces` on one frame: the provider raised
(`fail`), or returned a list of facial areas, each carrying the oracle for
the later embedding call on its crop. -/
inductive DetOutDF where
  | fail
  | found (faces : List (Rect × Option Emb))

/-- Per-iteration environment of the `process_video` frame loop:
`read = none` models `cap.read()` returning `ret = False` for this
iteration, and `det` is the detector outcome had the frame been
processed. -/
structure FrameEnvDF where
  read : Option Frame
  det : DetOutDF

/-- Frame loop of `face_processing.process_video` (lines 117-137), started
at frame index `idx`: a failed read breaks out of the loop immediately;
otherwise the frame is transformed (a detector exception or a mid-loop blur
exception is caught, logging the frame index) and the resulting frame is
written.  Returns the written frames in order together with the indices of
the frames for which a diagnostic was logged. -/
def frameLoopDF (da : Bool) (wl : List (String × Emb)) (t : ℚ)
    (blur : Frame → Frame) (idx : Nat) :
    List FrameEnvDF → List Frame × List Nat
  | [] => ([], [])
  | env :: rest =>
    match env.read with
    | none => ([], [])
    | some f =>
      let tail := frameLoopDF da wl t blur (idx + 1) rest
      match env.det with
      | .fail => (f :: tail.1, idx :: tail.2)
      | .found faces =>
        let r := processFacesDF da wl t blur f faces
        (r.1 :: tail.1, (if r.2 then [idx] else []) ++ tail.2)

/-- Embedding of `face_processing.process_video`: fail (returning `False`
and writing nothing) when DeepFace is unavailable, when the whitelist built
by `get_face_embeddings` is empty, or when the capture cannot be opened;
otherwise run the frame loop with the hard-coded match threshold 0.5 and
return `True`.  Result: (success flag, frames written to the destination,
indices of logged per-frame diagnostics). -/
def process_video (da : Bool) (wl : List (String × Emb)) (capOpened : Bool)
    (blur : Frame → Frame) (envs : List FrameEnvDF) :
    Bool × List Frame × List Nat :=
  if da then
    if wl.isEmpty then (false, [], [])
    else if capOpened then (true, frameLoopDF da wl (1 / 2) blur 0 envs)
    else (false, [], [])
  else (false, [], [])

/-- Per-iteration environment of the app's frame loop: the read outcome, the
detector outcome and the per-box embedding oracle for this frame. -/
structure FrameEnvPT where
  read : Option Frame
  det : DetectOutcome
  embedOf : Box → Option Emb

/-- Frame loop of `FaceBlurApp.process_video` (lines 233-254): a failed read
breaks; otherwise the frame is passed through
`self.processor.detect_and_blur_faces(frame)` and the result is written. -/
def appFrameLoop (wl : List Emb) (tDet tEmb : ℚ) (blur : Frame → Frame) :
    List FrameEnvPT → List Frame
  | [] => []
  | env :: rest =>
    match env.read with
    | none => []
    | some f =>
      (detect_and_blur_faces wl tDet tEmb blur env.embedOf env.det f).1 ::
        appFrameLoop wl tDet tEmb blur rest

/-- Embedding of `FaceBlurApp.process_video`: opens the capture and writer
and runs the loop with the processor's default thresholds
(`detection_confidence=0.9`, `embedding_threshold=0.8`).  The method never
inspects the whitelist: it runs the loop whatever
`processor.whitelist_embeddings` contains. -/
def app_process_video (wl : List Emb) (capOpened : Bool)
    (blur : Frame → Frame) (envs : List FrameEnvPT) : List Frame :=
  if capOpened then appFrameLoop wl (9 / 10) (4 / 5) blur envs else []

/-! Helper lemmas. -/

theorem sumSqDiff_nonneg (a b : Emb) : 0 ≤ sumSqDiff a b := by
  unfold sumSqDiff
  refine List.sum_nonneg ?_
  intro x hx
  rcases List.mem_map.mp hx with ⟨p, _, rfl⟩
  positivity

theorem distLtThreshold_iff (probe emb : Emb) (t : ℚ) :
    distLtThreshold probe emb t = true ↔
      0 < t ∧ sumSqDiff probe emb < t ^ 2 := by
  simp [distLtThreshold]

theorem distLtThreshold_mono (probe emb : Emb) (t1 t2 : ℚ) (hlt : t1 ≤ t2)
    (h : distLtThreshold probe emb t1 = true) :
    distLtThreshold probe emb t2 = true := by
  rw [distLtThreshold_iff] at h ⊢
  obtain ⟨h0, hs⟩ := h
  refine ⟨lt_of_lt_of_le h0 hlt, lt_of_lt_of_le hs ?_⟩
  exact pow_le_pow_left₀ (le_of_lt h0) hlt 2

theorem rat_min?_forall_le {l : List ℚ} {m : ℚ} (h : l.min? = some m) :
    ∀ x ∈ l, m ≤ x :=
  (List.le_min?_iff (fun _ _ _ => le_min_iff) h).mp le_rfl

theorem rat_min?_mem {l : List ℚ} {m : ℚ} (h : l.min? = some m) : m ∈ l :=
  List.min?_mem (fun a b => min_choice a b) h

theorem rat_min?_exists {l : List ℚ} (h : l ≠ []) : ∃ m, l.min? = some m := by
  cases hm : l.min? with
  | none => exact absurd (List.min?_eq_none_iff.mp hm) h
  | some m => exact ⟨m, rfl⟩

theorem df_matcher_any_iff (probe : Emb) (wl : List (String × Emb)) (t : ℚ) :
    is_face_whitelisted true (some probe) wl t = true ↔
      ∃ e ∈ wl, 0 < t ∧ sumSqDiff probe e.2 < t ^ 2 := by
  simp [is_face_whitelisted, List.any_eq_true, distLtThreshold_iff]

theorem df_pt_matchers_agree (probe : Emb) (wl : List (String × Emb)) (t : ℚ) :
    is_face_whitelisted true (some probe) wl t =
      ptWhitelisted probe (wl.map Prod.snd) t := by
  simp only [is_face_whitelisted, ptWhitelisted, if_true]
  induction wl with
  | nil => rfl
  | cons e rest ih => simp [ih]

/-! Claim theorems for the Identity Matcher. -/

/-- C3: with a non-empty whitelist store, both matcher variants report a
match iff the minimum squared distance between the probe and the entries is
strictly below the squared threshold (the exact rational rendering of
"minimum Euclidean distance strictly below the threshold"); a minimum
squared distance exactly equal to the squared threshold is not a match; and
the short-circuiting scan of the source agrees with the full-scan,
minimum-based matcher written from the spec. -/
theorem matcher_min_distance_characterization (probe : Emb)
    (wl : List (String × Emb)) (t : ℚ) (hne : wl ≠ []) :
    ∃ m, (distsSq probe wl).min? = some m ∧
      (is_face_whitelisted true (some probe) wl t = true ↔
        0 < t ∧ m < t ^ 2) ∧
      (m = t ^ 2 → is_face_whitelisted true (some probe) wl t = false) ∧
      is_face_whitelisted true (some probe) wl t = matchesFullScan probe wl t ∧
      is_face_whitelisted true (some probe) wl t =
        ptWhitelisted probe (wl.map Prod.snd) t := by
  have hne2 : distsSq probe wl ≠ [] := by
    simpa [distsSq] using hne
  obtain ⟨m, hm⟩ := rat_min?_exists hne2
  have hiff : is_face_whitelisted true (some probe) wl t = true ↔
      0 < t ∧ m < t ^ 2 := by
    rw [df_matcher_any_iff]
    constructor
    · rintro ⟨e, he, h0, hs⟩
      have hmem : sumSqDiff probe e.2 ∈ distsSq probe wl :=
        List.mem_map.mpr ⟨e, he, rfl⟩
      exact ⟨h0, lt_of_le_of_lt (rat_min?_forall_le hm _ hmem) hs⟩
    · rintro ⟨h0, hs⟩
      rcases List.mem_map.mp (rat_min?_mem hm) with ⟨e, he, hme⟩
      exact ⟨e, he, h0, by rw [hme]; exact hs⟩
  refine ⟨m, hm, hiff, ?_, ?_, df_pt_matchers_agree probe wl t⟩
  · intro heq
    cases hb : is_face_whitelisted true (some probe) wl t with
    | false => rfl
    | true =>
      have := hiff.mp hb
      rw [heq] at this
      exact absurd this.2 (lt_irrefl _)
  · have hfs : matchesFullScan probe wl t = decide (0 < t ∧ m < t ^ 2) := by
      unfold matchesFullScan
      rw [hm]
    rw [hfs]
    cases hb : is_face_whitelisted true (some probe) wl t with
    | false =>
      have : ¬ (0 < t ∧ m < t ^ 2) := fun hc =>
        by simp [hiff.mpr hc] at hb
      simp [this]
    | true => simp [hiff.mp hb]

/-- Concrete probe used by the matcher witnesses. -/
def cProbe : Emb := [0]

/-- Concrete one-entry whitelist store used by the matcher witnesses. -/
def cWl : List (String × Emb) := [("a", [3])]

/-- Witness for C3 at a concrete input: probe `[0]`, store `[("a", [3])]`,
threshold `4`; the squared distance is `9 < 16`, so the matcher reports a
match and the characterization holds. -/
theorem matcher_min_distance_characterization_witness :
    ∃ m, (distsSq cProbe cWl).min? = some m ∧
      (is_face_whitelisted true (some cProbe) cWl 4 = true ↔
        0 < (4 : ℚ) ∧ m < 4 ^ 2) ∧
      (m = (4 : ℚ) ^ 2 → is_face_whitelisted true (some cProbe) cWl 4 = false) ∧
      is_face_whitelisted true (some cProbe) cWl 4 = matchesFullScan cProbe cWl 4 ∧
      is_face_whitelisted true (some cProbe) cWl 4 =
        ptWhitelisted cProbe (cWl.map Prod.snd) 4 :=
  matcher_min_distance_characterization cProbe cWl 4 (by simp [cWl])

/-- C9: both matcher variants are monotone in the threshold: a match at
threshold `t1` is still a match at any larger threshold `t2`. -/
theorem matcher_monotone_in_threshold (probe : Emb) (wl : List (String × Emb))
    (wlp : List Emb) (t1 t2 : ℚ) (hlt : t1 < t2) :
    (is_face_whitelisted true (some probe) wl t1 = true →
      is_face_whitelisted true (some probe) wl t2 = true) ∧
    (ptWhitelisted probe wlp t1 = true → ptWhitelisted probe wlp t2 = true) := by
  constructor
  · intro h
    rcases df_matcher_any_iff probe wl t1 |>.mp h with ⟨e, he, h0, hs⟩
    refine (df_matcher_any_iff probe wl t2).mpr ⟨e, he, lt_trans h0 hlt, ?_⟩
    exact lt_of_lt_of_le hs (pow_le_pow_left₀ (le_of_lt h0) (le_of_lt hlt) 2)
  · intro h
    rcases List.any_eq_true.mp h with ⟨e, he, hd⟩
    exact List.any_eq_true.mpr
      ⟨e, he, distLtThreshold_mono probe e t1 t2 (le_of_lt hlt) hd⟩

/-- Witness for C9 at a concrete input: probe `[0]`, store `[("a", [0])]`
(distance 0), thresholds `1 < 2`; a match at 1 implies a match at 2. -/
theorem matcher_monotone_in_threshold_witness :
    (is_face_whitelisted true (some [0]) [("a", [0])] 1 = true →
      is_face_whitelisted true (some [0]) [("a", [0])] 2 = true) ∧
    (ptWhitelisted [0] [[0]] 1 = true → ptWhitelisted [0] [[0]] 2 = true) :=
  matcher_monotone_in_threshold [0] [("a", [0])] [[0]] 1 2 (by norm_num)

theorem foldl_blur_count_empty_wl (tDet tEmb : ℚ) (blur : Frame → Frame)
    (embedOf : Box → Option Emb) :
    ∀ (faces : List (Box × ℚ)) (f : Frame) (n : Nat),
      (faces.foldl (processFacePT [] tDet tEmb blur embedOf) (f, n)).2 =
        n + (faces.filter fun bp =>
          decide (tDet ≤ bp.2) && (embedOf bp.1).isSome).length := by
  intro faces
  induction faces with
  | nil => intro f n; simp
  | cons bp rest ih =>
    intro f n
    by_cases hp : bp.2 < tDet
    · have : ¬ tDet ≤ bp.2 := not_le.mpr hp
      simp [processFacePT, hp, this, ih]
    · have hle : tDet ≤ bp.2 := not_lt.mp hp
      cases he : embedOf bp.1 with
      | none => simp [processFacePT, hp, hle, he, ih]
      | some emb =>
        have hwl : ptWhitelisted emb [] tEmb = false := rfl
        simp only [List.foldl_cons, processFacePT, if_neg hp, he, hwl,
          Bool.false_eq_true, if_false, ih, List.filter_cons]
        simp [hle, he]
        omega

/-- C10: with an empty whitelist store both matcher variants report
no-match for every probe and every threshold, and the PyTorch frame
transformer consequently blurs every detected face that passes the
confidence threshold and whose embedding succeeds: its blurred count equals
the number of such faces. -/
theorem empty_whitelist_blurs_every_qualifying_face (probe : Emb)
    (eRes : Option Emb) (da : Bool) (t tDet tEmb : ℚ) (blur : Frame → Frame)
    (embedOf : Box → Option Emb) (faces : List (Box × ℚ)) (frame : Frame) :
    is_face_whitelisted da eRes [] t = false ∧
    ptWhitelisted probe [] t = false ∧
    (detect_and_blur_faces [] tDet tEmb blur embedOf
        (.found faces) frame).2.2 =
      (faces.filter fun bp =>
        decide (tDet ≤ bp.2) && (embedOf bp.1).isSome).length := by
  refine ⟨?_, rfl, ?_⟩
  · cases da <;> cases eRes <;> rfl
  · unfold detect_and_blur_faces
    simpa using foldl_blur_count_empty_wl tDet tEmb blur embedOf faces frame 0

/-! Claim theorems for the Frame Transformer error paths and counters. -/

/-- C5: when the detector fails for a whole frame, the PyTorch transformer
returns the frame unmodified with zero counts; in the DeepFace pipeline the
exception is caught, a diagnostic carrying the frame index is logged, the
unmodified frame is still written, and the loop continues with the
remaining frames; the app's loop likewise writes the untouched frame and
continues. -/
theorem detector_failure_passes_frame_through (wl : List Emb)
    (wl2 : List (String × Emb)) (tDet tEmb t : ℚ) (blur : Frame → Frame)
    (embedOf : Box → Option Emb) (frame f : Frame) (da : Bool) (idx : Nat)
    (rest : List FrameEnvDF) (restPT : List FrameEnvPT)
    (e : Box → Option Emb) :
    detect_and_blur_faces wl tDet tEmb blur embedOf .fail frame =
      (frame, 0, 0) ∧
    frameLoopDF da wl2 t blur idx ({ read := some f, det := .fail } :: rest) =
      (f :: (frameLoopDF da wl2 t blur (idx + 1) rest).1,
        idx :: (frameLoopDF da wl2 t blur (idx + 1) rest).2) ∧
    appFrameLoop wl tDet tEmb blur
        ({ read := some f, det := .fail, embedOf := e } :: restPT) =
      f :: appFrameLoop wl tDet tEmb blur restPT := by
  refine ⟨rfl, ?_, rfl⟩
  show (f :: (frameLoopDF da wl2 t blur (idx + 1) rest).1,
      idx :: (frameLoopDF da wl2 t blur (idx + 1) rest).2) = _
  rfl

/-- C8 (amended): detectedCount equals the total number of boxes returned by
the detector — `num_detected = len(boxes)` — regardless of the confidence
filtering outcome or the blur outcome, and it is zero when the detector
fails or finds no faces. -/
theorem detectedCount_counts_all_returned_boxes (wl : List Emb)
    (tDet tEmb : ℚ) (blur : Frame → Frame) (embedOf : Box → Option Emb)
    (faces : List (Box × ℚ)) (frame : Frame) :
    (detect_and_blur_faces wl tDet tEmb blur embedOf
        (.found faces) frame).2.1 = faces.length ∧
    (detect_and_blur_faces wl tDet tEmb blur embedOf .fail frame).2.1 = 0 ∧
    (detect_and_blur_faces wl tDet tEmb blur embedOf
        .noFaces frame).2.1 = 0 :=
  ⟨rfl, rfl, rfl⟩

/-- Concrete frame used by the counterexamples: 4×4, 3 channels, all pixel
values 0. -/
def cFrame : Frame := ⟨4, 4, 3, fun _ _ => 0⟩

/-- Concrete box covering rows 0-1 and columns 0-1 of `cFrame`. -/
def cBox : Box := ⟨0, 0, 2, 2⟩

/-- Embedding oracle that always succeeds with the embedding `[0]`. -/
def cEmbSome : Box → Option Emb := fun _ => some [0]

/-- C8 counterexample: one returned box with confidence 0 below the
detection threshold 1; the transformer reports detectedCount = 1 although
zero regions pass the confidence threshold, so detectedCount is not
"once per region whose confidence passes the detection threshold". -/
theorem detectedCount_not_filtered_counterexample :
    (detect_and_blur_faces [] 1 1 id cEmbSome
        (.found [(cBox, 0)]) cFrame).2.1 = 1 ∧
    ([(cBox, (0 : ℚ))].filter fun bp => decide ((1 : ℚ) ≤ bp.2)).length = 0 ∧
    (1 : Nat) ≠ 0 := by
  refine ⟨rfl, ?_, by decide⟩
  have h : ¬ ((1 : ℚ) ≤ 0) := by norm_num
  simp [List.filter, h]

/-! Claim theorems for the Video Pipeline Controller. -/

/-- The frame written by the DeepFace pipeline for one successfully read
frame environment. -/
def dfWrittenFrame (da : Bool) (wl : List (String × Emb)) (t : ℚ)
    (blur : Frame → Frame) (env : FrameEnvDF) : Frame :=
  match env.det with
  | .fail => env.read.getD default
  | .found faces =>
    (processFacesDF da wl t blur (env.read.getD default) faces).1

theorem frameLoopDF_frames_eq_prefix (da : Bool) (wl : List (String × Emb))
    (t : ℚ) (blur : Frame → Frame) :
    ∀ (idx : Nat) (envs : List FrameEnvDF),
      (frameLoopDF da wl t blur idx envs).1 =
        (envs.takeWhile fun env => env.read.isSome).map
          (dfWrittenFrame da wl t blur) := by
  intro idx envs
  induction envs generalizing idx with
  | nil => rfl
  | cons env rest ih =>
    cases hr : env.read with
    | none => simp [frameLoopDF, hr, List.takeWhile_cons, Option.isSome]
    | some f =>
      cases hd : env.det with
      | fail =>
        simp [frameLoopDF, hr, hd, List.takeWhile_cons, Option.isSome,
          dfWrittenFrame, ih]
      | found faces =>
        simp [frameLoopDF, hr, hd, List.takeWhile_cons, Option.isSome,
          dfWrittenFrame, ih]

/-- Environment for one successfully read frame with no detected faces. -/
def cEnvOk : FrameEnvDF := ⟨some cFrame, .found []⟩

/-- Environment for one frame whose decode fails (`cap.read()` returns
`ret = False`). -/
def cEnvBad : FrameEnvDF := ⟨none, .found []⟩

/-- Ten frame reads of which the fifth fails to decode. -/
def cEnvs10 : List FrameEnvDF :=
  [cEnvOk, cEnvOk, cEnvOk, cEnvOk, cEnvBad,
    cEnvOk, cEnvOk, cEnvOk, cEnvOk, cEnvOk]

/-- C1 counterexample: a ten-frame source whose fifth frame fails to decode.
The loop breaks at the failed read, so the destination receives the 4
frames read before it — not the 9 frames the claim predicts — and the later
frames are never read or written. -/
theorem failed_decode_truncates_output_counterexample :
    (process_video true cWl true id cEnvs10).2.1.length = 4 ∧
    (4 : Nat) ≠ 9 :=
  ⟨rfl, by decide⟩

/-- C1 (amended): the pipeline writes exactly the frames successfully read
before the first decode failure, in order, and still reports success; a
failed read breaks the loop, so no later frame is read, processed or
written (the app's loop stops at a failed read the same way). -/
theorem pipeline_writes_prefix_before_first_failed_read
    (wl : List (String × Emb)) (blur : Frame → Frame)
    (envs : List FrameEnvDF) (wlp : List Emb) (tD tE : ℚ)
    (d : DetectOutcome) (e : Box → Option Emb) (restPT : List FrameEnvPT)
    (hwl : wl ≠ []) :
    (process_video true wl true blur envs).1 = true ∧
    (process_video true wl true blur envs).2.1 =
      (envs.takeWhile fun env => env.read.isSome).map
        (dfWrittenFrame true wl (1 / 2) blur) ∧
    appFrameLoop wlp tD tE blur
      ({ read := none, det := d, embedOf := e } :: restPT) = [] := by
  have hne : wl.isEmpty = false := by
    cases wl with
    | nil => exact absurd rfl hwl
    | cons a l => rfl
  refine ⟨?_, ?_, rfl⟩
  · simp [process_video, hne]
  · simp only [process_video, hne, Bool.false_eq_true, if_false, if_true]
    exact frameLoopDF_frames_eq_prefix true wl (1 / 2) blur 0 envs

/-- Witness for C1 (amended) at a concrete input: the non-empty store `cWl`
and the ten-read environment `cEnvs10` with its fifth read failing. -/
theorem pipeline_writes_prefix_witness :
    (process_video true cWl true id cEnvs10).1 = true ∧
    (process_video true cWl true id cEnvs10).2.1 =
      (cEnvs10.takeWhile fun env => env.read.isSome).map
        (dfWrittenFrame true cWl (1 / 2) id) ∧
    appFrameLoop [] 1 1 id
      ({ read := none, det := .noFaces, embedOf := cEmbSome } :: []) = [] :=
  pipeline_writes_prefix_before_first_failed_read cWl id cEnvs10 [] 1 1
    .noFaces cEmbSome [] (by simp [cWl])

/-- C4 (amended): the DeepFace pipeline refuses to start against an empty
whitelist: `process_video` returns failure before opening the source and
writes no frame (the Tkinter app pipeline, by contrast, performs no such
check — see the counterexample). -/
theorem empty_whitelist_fails_df_pipeline (da cap : Bool)
    (blur : Frame → Frame) (envs : List FrameEnvDF) :
    process_video da [] cap blur envs = (false, [], []) := by
  cases da <;> cases cap <;> rfl

/-- Environment for one successfully read frame in the app pipeline, with
no faces detected. -/
def cEnvPT : FrameEnvPT := ⟨some cFrame, .noFaces, cEmbSome⟩

/-- C4 counterexample: the app pipeline (`FaceBlurApp.process_video`) never
checks the whitelist; started with zero whitelist entries and a one-frame
source it still reads, processes and writes that frame instead of failing
configuration. -/
theorem empty_whitelist_app_still_processes_counterexample :
    (app_process_video [] true id [cEnvPT]).length = 1 ∧ (1 : Nat) ≠ 0 :=
  ⟨rfl, by decide⟩

/-! Claim theorems for the per-region embedding-failure policy. -/

/-- Embedding oracle that always fails (`mtcnn.extract` returns `None`). -/
def cEmbNone : Box → Option Emb := fun _ => none

/-- Opaque stand-in for the external Gaussian blur: sets every pixel of the
region it is given to 7, so that blurring is observable. -/
def cBlur7 : Frame → Frame := fun fr => ⟨fr.h, fr.w, fr.c, fun _ _ => 7⟩

/-- C2 counterexample: in the PyTorch variant a region whose face-tensor
extraction fails is skipped (`continue`), not blurred: with one confident
box whose extraction fails the transformer returns the frame unchanged with
blurred count 0, although the same input with a succeeding extraction and
an empty whitelist blurs the region (pixel (0,0) becomes 7).  So the claim
that an embedding failure defaults to treat-as-unknown (blur) is false for
this variant. -/
theorem embed_failure_leaves_region_unblurred_counterexample :
    detect_and_blur_faces [] 1 1 cBlur7 cEmbNone
        (.found [(cBox, 2)]) cFrame = (cFrame, 1, 0) ∧
    (detect_and_blur_faces [] 1 1 cBlur7 cEmbSome
        (.found [(cBox, 2)]) cFrame).1.pix 0 0 = 7 ∧
    cFrame.pix 0 0 = 0 :=
  ⟨rfl, rfl, rfl⟩

/-- Concrete facial area covering rows 0-1 and columns 0-1 of `cFrame`. -/
def cRect : Rect := ⟨0, 0, 2, 2⟩

/-- C2 (amended): the two variants disagree on a failed embedding.  In the
DeepFace variant the failure is treated as no-match, so the region is
blurred and the remaining regions are still processed; in the PyTorch
variant the region is skipped entirely — left unblurred and uncounted — and
the remaining regions are still processed.  Neither variant aborts the
frame. -/
theorem embed_failure_policy_by_variant (da : Bool)
    (wl : List (String × Emb)) (wlp : List Emb) (t tDet tEmb : ℚ)
    (blur : Frame → Frame) (frame : Frame) (rect : Rect)
    (rest : List (Rect × Option Emb)) (bp : Box × ℚ)
    (embedOf : Box → Option Emb) (restPT : List (Box × ℚ))
    (hsize : 0 < dfCropSize frame rect) (hemb : embedOf bp.1 = none) :
    is_face_whitelisted da none wl t = false ∧
    processFacesDF da wl t blur frame ((rect, none) :: rest) =
      processFacesDF da wl t blur (dfBlurRegion blur frame rect) rest ∧
    detect_and_blur_faces wlp tDet tEmb blur embedOf
        (.found (bp :: restPT)) frame =
      ((detect_and_blur_faces wlp tDet tEmb blur embedOf
          (.found restPT) frame).1,
        restPT.length + 1,
        (detect_and_blur_faces wlp tDet tEmb blur embedOf
          (.found restPT) frame).2.2) := by
  have hwl : is_face_whitelisted da none wl t = false := by
    cases da <;> rfl
  refine ⟨hwl, ?_, ?_⟩
  · simp [processFacesDF, hwl, hsize]
  · have hstep : processFacePT wlp tDet tEmb blur embedOf (frame, 0) bp =
        (frame, 0) := by
      unfold processFacePT
      by_cases hp : bp.2 < tDet
      · simp [hp]
      · simp [hp, hemb]
    simp [detect_and_blur_faces, hstep]

/-- Witness for C2 (amended) at a concrete input: facial area `cRect` with
non-empty crop in `cFrame`, and a confident box whose extraction fails. -/
theorem embed_failure_policy_by_variant_witness :
    is_face_whitelisted true none [] 1 = false ∧
    processFacesDF true [] 1 cBlur7 cFrame ((cRect, none) :: []) =
      processFacesDF true [] 1 cBlur7 (dfBlurRegion cBlur7 cFrame cRect) [] ∧
    detect_and_blur_faces [] 1 1 cBlur7 cEmbNone
        (.found ((cBox, 2) :: [])) cFrame =
      ((detect_and_blur_faces [] 1 1 cBlur7 cEmbNone
          (.found []) cFrame).1,
        List.length ([] : List (Box × ℚ)) + 1,
        (detect_and_blur_faces [] 1 1 cBlur7 cEmbNone
          (.found []) cFrame).2.2) :=
  embed_failure_policy_by_variant true [] [] 1 1 1 cBlur7 cFrame cRect []
    (cBox, 2) cEmbNone [] (by decide) rfl

/-! Claim theorems for coordinate handling at the frame boundary. -/

/-- Clamping of one slice endpoint to the frame bounds, written from the
spec's words ("coordinates must be clamped to frame bounds before
cropping"); defined only to compare against the slice resolution the source
actually performs. -/
def specClamp (n : Nat) (i : Int) : Nat := (max 0 (min i (n : Int))).toNat

/-- Concrete box protruding past the left frame edge: x1 = -1. -/
def cBoxNeg : Box := ⟨-1, 0, 4, 4⟩

/-- C6 counterexample: the source does not clamp coordinates before
cropping.  For the box with x1 = -1 on the 4×4 frame, Python slice
semantics resolve the negative start to column 3 (addressing from the right
edge), so the crop is 1 column wide, whereas the clamp-to-bounds crop the
claim describes would start at column 0 and be 4 columns wide. -/
theorem crop_not_clamped_counterexample :
    (cropPT cFrame cBoxNeg).w = 1 ∧
    (subgrid cFrame (specClamp 4 0) (specClamp 4 4) (specClamp 4 (-1))
        (specClamp 4 4)).w = 4 ∧
    (1 : Nat) ≠ 4 :=
  ⟨rfl, rfl, by decide⟩

theorem npResolve_le (n : Nat) (i : Int) : npResolve n i ≤ n := by
  unfold npResolve
  split <;> omega

/-- C6 (amended): the source performs no clamping; crops follow Python
slice semantics (negative starts address from the far edge — see the
counterexample).  Nevertheless no out-of-range pixel access occurs: every
resolved slice endpoint lies within the frame dimension, every pixel read
by a crop comes from an in-bounds coordinate of the frame, and the
write-back of the blurred region leaves every pixel outside the resolved
rectangle (in particular every out-of-frame coordinate) untouched. -/
theorem slice_semantics_keep_accesses_in_bounds (f : Frame) (b : Box)
    (g : Frame) (i j : Nat) :
    ptR1 f b ≤ f.h ∧ ptR2 f b ≤ f.h ∧ ptC1 f b ≤ f.w ∧ ptC2 f b ≤ f.w ∧
    (i < (cropPT f b).h → ptR1 f b + i < f.h) ∧
    (j < (cropPT f b).w → ptC1 f b + j < f.w) ∧
    (cropPT f b).pix i j = f.pix (ptR1 f b + i) (ptC1 f b + j) ∧
    (¬ (ptR1 f b ≤ i ∧ i < ptR2 f b ∧ ptC1 f b ≤ j ∧ j < ptC2 f b) →
      (writeRegion f (ptR1 f b) (ptR2 f b) (ptC1 f b) (ptC2 f b) g).pix i j
        = f.pix i j) := by
  have h1 := npResolve_le f.h b.y1
  have h2 := npResolve_le f.h b.y2
  have h3 := npResolve_le f.w b.x1
  have h4 := npResolve_le f.w b.x2
  refine ⟨h1, h2, h3, h4, ?_, ?_, rfl, ?_⟩
  · intro hi
    have : (cropPT f b).h = ptR2 f b - ptR1 f b := rfl
    rw [this] at hi
    unfold ptR1 ptR2 at *
    omega
  · intro hj
    have : (cropPT f b).w = ptC2 f b - ptC1 f b := rfl
    rw [this] at hj
    unfold ptC1 ptC2 at *
    omega
  · intro hout
    simp [writeRegion, hout]

/-- Witness for C6 (amended) at a concrete input: the protruding box
`cBoxNeg` on `cFrame`; row read 0 of the crop is in bounds and the write
back leaves the out-of-rectangle pixel (0,0) unchanged. -/
theorem slice_semantics_keep_accesses_in_bounds_witness :
    ptR1 cFrame cBoxNeg + 0 < cFrame.h ∧
    (writeRegion cFrame (ptR1 cFrame cBoxNeg) (ptR2 cFrame cBoxNeg)
        (ptC1 cFrame cBoxNeg) (ptC2 cFrame cBoxNeg) cFrame).pix 0 0 =
      cFrame.pix 0 0 :=
  ⟨(slice_semantics_keep_accesses_in_bounds cFrame cBoxNeg cFrame 0
      0).2.2.2.2.1 (by decide),
    (slice_semantics_keep_accesses_in_bounds cFrame cBoxNeg cFrame 0
      0).2.2.2.2.2.2.2 (by decide)⟩

/-! Claim theorems for the pixel effect of the Frame Transformer. -/

/-- Membership of pixel (i, j) in the resolved rectangle of box `b` for a
frame with the dimensions of `f`. -/
def inPtRect (f : Frame) (b : Box) (i j : Nat) : Prop :=
  ptR1 f b ≤ i ∧ i < ptR2 f b ∧ ptC1 f b ≤ j ∧ j < ptC2 f b

instance (f : Frame) (b : Box) (i j : Nat) : Decidable (inPtRect f b i j) :=
  inferInstanceAs (Decidable (_ ∧ _ ∧ _ ∧ _))

/-- Whether the loop of `detect_and_blur_faces` takes the blur branch for
the face `bp`: confidence passes, extraction succeeds and the whitelist
scan finds no match.  This depends only on the detection data, not on the
frame contents. -/
def willBlur (wl : List Emb) (tDet tEmb : ℚ) (embedOf : Box → Option Emb)
    (bp : Box × ℚ) : Bool :=
  if bp.2 < tDet then false
  else
    match embedOf bp.1 with
    | none => false
    | some emb => ! ptWhitelisted emb wl tEmb

/-- The boxes the detector returned, empty on failure or no faces. -/
def detFaces : DetectOutcome → List (Box × ℚ)
  | .fail => []
  | .noFaces => []
  | .found faces => faces

theorem ptBlurRegion_dims (blur : Frame → Frame) (f : Frame) (b : Box) :
    (ptBlurRegion blur f b).h = f.h ∧ (ptBlurRegion blur f b).w = f.w ∧
      (ptBlurRegion blur f b).c = f.c := by
  unfold ptBlurRegion
  split <;> exact ⟨rfl, rfl, rfl⟩

theorem processFacePT_dims (wl : List Emb) (tDet tEmb : ℚ)
    (blur : Frame → Frame) (embedOf : Box → Option Emb) (st : Frame × Nat)
    (bp : Box × ℚ) :
    (processFacePT wl tDet tEmb blur embedOf st bp).1.h = st.1.h ∧
    (processFacePT wl tDet tEmb blur embedOf st bp).1.w = st.1.w ∧
    (processFacePT wl tDet tEmb blur embedOf st bp).1.c = st.1.c := by
  unfold processFacePT
  split
  · exact ⟨rfl, rfl, rfl⟩
  · split
    · exact ⟨rfl, rfl, rfl⟩
    · split
      · exact ⟨rfl, rfl, rfl⟩
      · exact ptBlurRegion_dims blur st.1 _

theorem foldl_processFacePT_dims (wl : List Emb) (tDet tEmb : ℚ)
    (blur : Frame → Frame) (embedOf : Box → Option Emb) :
    ∀ (faces : List (Box × ℚ)) (st : Frame × Nat),
      (faces.foldl (processFacePT wl tDet tEmb blur embedOf) st).1.h =
        st.1.h ∧
      (faces.foldl (processFacePT wl tDet tEmb blur embedOf) st).1.w =
        st.1.w ∧
      (faces.foldl (processFacePT wl tDet tEmb blur embedOf) st).1.c =
        st.1.c := by
  intro faces
  induction faces with
  | nil => intro st; exact ⟨rfl, rfl, rfl⟩
  | cons bp rest ih =>
    intro st
    have h1 := processFacePT_dims wl tDet tEmb blur embedOf st bp
    have h2 := ih (processFacePT wl tDet tEmb blur embedOf st bp)
    simp only [List.foldl_cons]
    exact ⟨h2.1.trans h1.1, h2.2.1.trans h1.2.1, h2.2.2.trans h1.2.2⟩

theorem inPtRect_congr {f g : Frame} (b : Box) (i j : Nat)
    (hh : g.h = f.h) (hw : g.w = f.w) :
    inPtRect g b i j ↔ inPtRect f b i j := by
  unfold inPtRect ptR1 ptR2 ptC1 ptC2
  rw [hh, hw]

theorem ptBlurRegion_pix_outside (blur : Frame → Frame) (f : Frame) (b : Box)
    (i j : Nat) (hout : ¬ inPtRect f b i j) :
    (ptBlurRegion blur f b).pix i j = f.pix i j := by
  unfold ptBlurRegion
  split
  · unfold inPtRect at hout
    simp [writeRegion, hout]
  · rfl

theorem foldl_processFacePT_pix_outside (wl : List Emb) (tDet tEmb : ℚ)
    (blur : Frame → Frame) (embedOf : Box → Option Emb) :
    ∀ (faces : List (Box × ℚ)) (f0 : Frame) (n i j : Nat),
      (∀ bp ∈ faces, willBlur wl tDet tEmb embedOf bp = true →
        ¬ inPtRect f0 bp.1 i j) →
      (faces.foldl (processFacePT wl tDet tEmb blur embedOf)
        (f0, n)).1.pix i j = f0.pix i j := by
  intro faces
  induction faces with
  | nil => intro f0 n i j _; rfl
  | cons bp rest ih =>
    intro f0 n i j hout
    simp only [List.foldl_cons]
    have hrest : ∀ bp2 ∈ rest, willBlur wl tDet tEmb embedOf bp2 = true →
        ¬ inPtRect f0 bp2.1 i j :=
      fun bp2 h2 hb => hout bp2 (List.mem_cons_of_mem bp h2) hb
    by_cases hp : bp.2 < tDet
    · have : processFacePT wl tDet tEmb blur embedOf (f0, n) bp = (f0, n) := by
        unfold processFacePT
        simp [hp]
      rw [this]
      exact ih f0 n i j hrest
    · cases he : embedOf bp.1 with
      | none =>
        have : processFacePT wl tDet tEmb blur embedOf (f0, n) bp =
            (f0, n) := by
          unfold processFacePT
          simp [hp, he]
        rw [this]
        exact ih f0 n i j hrest
      | some emb =>
        cases hw : ptWhitelisted emb wl tEmb with
        | true =>
          have : processFacePT wl tDet tEmb blur embedOf (f0, n) bp =
              (f0, n) := by
            unfold processFacePT
            simp [hp, he, hw]
          rw [this]
          exact ih f0 n i j hrest
        | false =>
          have hb : willBlur wl tDet tEmb embedOf bp = true := by
            unfold willBlur
            simp [hp, he, hw]
          have hnin : ¬ inPtRect f0 bp.1 i j :=
            hout bp (List.mem_cons_self bp rest) hb
          have hstep : processFacePT wl tDet tEmb blur embedOf (f0, n) bp =
              (ptBlurRegion blur f0 bp.1, n + 1) := by
            unfold processFacePT
            simp [hp, he, hw]
          rw [hstep]
          have hdims := ptBlurRegion_dims blur f0 bp.1
          have hrest2 : ∀ bp2 ∈ rest,
              willBlur wl tDet tEmb embedOf bp2 = true →
              ¬ inPtRect (ptBlurRegion blur f0 bp.1) bp2.1 i j := by
            intro bp2 h2 hb2
            rw [inPtRect_congr bp2.1 i j hdims.1 hdims.2.1]
            exact hrest bp2 h2 hb2
          rw [ih (ptBlurRegion blur f0 bp.1) (n + 1) i j hrest2]
          exact ptBlurRegion_pix_outside blur f0 bp.1 i j hnin

/-- C7 (amended): the PyTorch transformer never changes the frame's
dimensions or channel count, and every pixel it changes lies inside the
resolved rectangle of some detected face for which the blur branch is
taken: any pixel outside all blurred rectangles — in particular any pixel
outside all detected regions, and any pixel of a matched face that no
unmatched rectangle overlaps — is unchanged.  Because regions are blurred
in place, a pixel of a matched face that an unmatched rectangle overlaps
can still change (see the counterexample). -/
theorem transformer_changes_only_blurred_rectangles (wl : List Emb)
    (tDet tEmb : ℚ) (blur : Frame → Frame) (embedOf : Box → Option Emb)
    (det : DetectOutcome) (frame : Frame) (i j : Nat) :
    (detect_and_blur_faces wl tDet tEmb blur embedOf det frame).1.h =
      frame.h ∧
    (detect_and_blur_faces wl tDet tEmb blur embedOf det frame).1.w =
      frame.w ∧
    (detect_and_blur_faces wl tDet tEmb blur embedOf det frame).1.c =
      frame.c ∧
    ((∀ bp ∈ detFaces det, willBlur wl tDet tEmb embedOf bp = true →
        ¬ inPtRect frame bp.1 i j) →
      (detect_and_blur_faces wl tDet tEmb blur embedOf det frame).1.pix i j
        = frame.pix i j) := by
  cases det with
  | fail => exact ⟨rfl, rfl, rfl, fun _ => rfl⟩
  | noFaces => exact ⟨rfl, rfl, rfl, fun _ => rfl⟩
  | found faces =>
    have hd := foldl_processFacePT_dims wl tDet tEmb blur embedOf faces
      (frame, 0)
    refine ⟨hd.1, hd.2.1, hd.2.2, ?_⟩
    intro hout
    exact foldl_processFacePT_pix_outside wl tDet tEmb blur embedOf faces
      frame 0 i j hout

/-- Witness for C7 (amended) at a concrete input: one confident unmatched
box over rows and columns 0-1 of `cFrame`; the pixel (3,3) lies outside
its rectangle and is unchanged, and the dimensions are unchanged. -/
theorem transformer_changes_only_blurred_rectangles_witness :
    (detect_and_blur_faces [] 1 1 cBlur7 cEmbSome
        (.found [(cBox, 2)]) cFrame).1.h = cFrame.h ∧
    (detect_and_blur_faces [] 1 1 cBlur7 cEmbSome
        (.found [(cBox, 2)]) cFrame).1.w = cFrame.w ∧
    (detect_and_blur_faces [] 1 1 cBlur7 cEmbSome
        (.found [(cBox, 2)]) cFrame).1.c = cFrame.c ∧
    (detect_and_blur_faces [] 1 1 cBlur7 cEmbSome
        (.found [(cBox, 2)]) cFrame).1.pix 3 3 = cFrame.pix 3 3 := by
  have h := transformer_changes_only_blurred_rectangles [] 1 1 cBlur7
    cEmbSome (.found [(cBox, 2)]) cFrame 3 3
  exact ⟨h.1, h.2.1, h.2.2.1, h.2.2.2 (by decide)⟩

/-- Concrete box over rows 1-2 and columns 1-2, overlapping `cBox` at
pixel (1,1). -/
def cBoxB : Box := ⟨1, 1, 3, 3⟩

/-- Embedding oracle for the overlap counterexample: the box starting at
column 0 (`cBox`) embeds to `[0]`, any other box to `[10]`. -/
def cEmbOf2 : Box → Option Emb := fun b => if b.x1 = 0 then some [0] else some [10]

/-- C7 counterexample: two overlapping detected faces, one matched (`cBox`,
embedding `[0]`, distance 0 to the whitelist entry) and one unmatched
(`cBoxB`, embedding `[10]`).  Blurring is in place, so the blur of `cBoxB`
changes pixel (1,1), which lies inside the matched face's rectangle: the
matched face's pixels are not left unchanged, refuting the claim as
stated. -/
theorem matched_face_pixel_changed_counterexample :
    ptWhitelisted [0] [[0]] 1 = true ∧
    ptWhitelisted [10] [[0]] 1 = false ∧
    inPtRect cFrame cBox 1 1 ∧
    (detect_and_blur_faces [[0]] 1 1 cBlur7 cEmbOf2
        (.found [(cBox, 2), (cBoxB, 2)]) cFrame).1.pix 1 1 = 7 ∧
    cFrame.pix 1 1 = 0 := by
  have h1 : ptWhitelisted [0] [[0]] 1 = true := by
    simp [ptWhitelisted, distLtThreshold, sumSqDiff]
  have h2 : ptWhitelisted [10] [[0]] 1 = false := by
    simp [ptWhitelisted, distLtThreshold, sumSqDiff]
  have hp : ¬ ((2 : ℚ) < 1) := by norm_num
  refine ⟨h1, h2, by decide, ?_, rfl⟩
  have hs1 : processFacePT [[0]] 1 1 cBlur7 cEmbOf2 (cFrame, 0)
      (cBox, 2) = (cFrame, 0) := by
    unfold processFacePT
    simp [hp, cEmbOf2, cBox, h1]
  have hs2 : processFacePT [[0]] 1 1 cBlur7 cEmbOf2 (cFrame, 0)
      (cBoxB, 2) = (ptBlurRegion cBlur7 cFrame cBoxB, 1) := by
    unfold processFacePT
    simp [hp, cEmbOf2, cBoxB, h2]
  show (detect_and_blur_faces [[0]] 1 1 cBlur7 cEmbOf2
      (.found [(cBox, 2), (cBoxB, 2)]) cFrame).1.pix 1 1 = 7
  unfold detect_and_blur_faces
  simp only [List.foldl_cons, List.foldl_nil, hs1, hs2]
  rfl

end FaceBlur
